import Mathlib

/-!
# Verification of the Asfalis scan-orchestration core

Shallow embedding of the scan orchestration core of the AsfalisSecurityIDE
backend (`backend/sarif_normalize.py`, `backend/scanner_runner.py`,
`backend/worker.py`, `backend/db.py`) together with proofs settling the
specification claims about it.

Modelling conventions:
* Python strings are Lean `String`s; `str.upper()/lower()/strip()` are modelled
  over the ASCII ranges (the inputs concerned — SARIF levels, scanner
  messages — are ASCII).
* Python `float(...)` applied to CVSS strings is modelled as exact decimal
  parsing into `ℚ` (sign, digits, optional fraction, optional exponent);
  IEEE-754 rounding and the special forms `inf`/`nan` are elided.
* Machine integers do not occur; sizes and line numbers are `Nat`/`Int`.
* `hashlib.sha256` is implemented in full (FIPS 180-4) over UTF-8 bytes.
* Fallible operations (subprocess, file IO, JSON parsing, HTTP download)
  are explicit: outcomes are supplied by an `Env`/file-system oracle and
  exceptions are `Except`/explicit error branches, mirroring the `try/except`
  structure of the source.
-/

/-! ## Python string primitives (ASCII model) -/

/-- `str.upper()` on one character, ASCII range (source strings are ASCII). -/
def pyUpperChar (c : Char) : Char :=
  if 97 ≤ c.toNat ∧ c.toNat ≤ 122 then Char.ofNat (c.toNat - 32) else c

/-- `str.lower()` on one character, ASCII range. -/
def pyLowerChar (c : Char) : Char :=
  if 65 ≤ c.toNat ∧ c.toNat ≤ 90 then Char.ofNat (c.toNat + 32) else c

/-- `str.upper()`. -/
def pyUpper (s : String) : String := String.mk (s.data.map pyUpperChar)

/-- `str.lower()`. -/
def pyLower (s : String) : String := String.mk (s.data.map pyLowerChar)

/-- Python whitespace (ASCII part), as stripped by `str.strip()`. -/
def isPySpace (c : Char) : Bool :=
  c = ' ' || c = '\t' || c = '\n' || c = '\r' || c.toNat = 11 || c.toNat = 12

def trimPySpaces (cs : List Char) : List Char :=
  ((cs.dropWhile isPySpace).reverse.dropWhile isPySpace).reverse

/-- `str.strip()`. -/
def pyStrip (s : String) : String := String.mk (trimPySpaces s.data)

/-- Does `hay` start with `needle`? -/
def listStarts : List Char → List Char → Bool
  | [], _ => true
  | _ :: _, [] => false
  | a :: as, b :: bs => a = b && listStarts as bs

/-- Does `hay` contain `needle` as a contiguous sublist? -/
def listHasSub (needle : List Char) : List Char → Bool
  | [] => listStarts needle []
  | c :: rest => listStarts needle (c :: rest) || listHasSub needle rest

/-- Python `needle in hay` on strings. -/
def strContains (hay needle : String) : Bool := listHasSub needle.data hay.data

/-- Python truthiness fallback `s or dflt` on strings. -/
def pyOr (s dflt : String) : String := if s = "" then dflt else s

/-- Python `x or dflt` where `x : str | None`. -/
def pyOrOpt (s : Option String) (dflt : String) : String :=
  match s with
  | none => dflt
  | some v => pyOr v dflt

/-! ## Python `float()` on CVSS strings, modelled as exact decimal parsing -/

def isPyDigit (c : Char) : Bool := 48 ≤ c.toNat && c.toNat ≤ 57

def digitsToNat (acc : Nat) : List Char → Nat
  | [] => acc
  | c :: cs => digitsToNat (acc * 10 + (c.toNat - 48)) cs

/-- Read an optional sign; returns (isNegative, rest). -/
def readSignChar : List Char → Bool × List Char
  | '+' :: cs => (false, cs)
  | '-' :: cs => (true, cs)
  | cs => (false, cs)

/-- Parse `digits [. digits]` (at least one digit overall); returns the
integer-part and fraction-part digit lists. -/
def parseDecimalPart (cs : List Char) : Option ((List Char × List Char) × List Char) :=
  let ip := cs.takeWhile isPyDigit
  let rest := cs.dropWhile isPyDigit
  match rest with
  | '.' :: rest2 =>
    let fp := rest2.takeWhile isPyDigit
    let rest3 := rest2.dropWhile isPyDigit
    if ip.isEmpty && fp.isEmpty then none else some ((ip, fp), rest3)
  | _ => if ip.isEmpty then none else some ((ip, []), rest)

/-- The exact rational `±(ip.fp) · 10^e`. -/
def decimalValue (neg : Bool) (ip fp : List Char) (e : ℤ) : ℚ :=
  let m : ℤ := (digitsToNat 0 (ip ++ fp) : ℤ)
  let m := if neg then -m else m
  match e - (fp.length : ℤ) with
  | .ofNat k => mkRat (m * ((10 ^ k : ℕ) : ℤ)) 1
  | .negSucc k => mkRat m (10 ^ (k + 1))

/-- Parse an optional exponent `([eE] [sign] digits)`; returns the exponent value. -/
def parseExpPart (cs : List Char) : Option (ℤ × List Char) :=
  match cs with
  | c :: rest =>
    if c = 'e' ∨ c = 'E' then
      let (neg, rest2) := readSignChar rest
      let ds := rest2.takeWhile isPyDigit
      let rest3 := rest2.dropWhile isPyDigit
      if ds.isEmpty then none
      else some ((if neg then -(digitsToNat 0 ds : ℤ) else (digitsToNat 0 ds : ℤ)), rest3)
    else some (0, cs)
  | [] => some (0, [])

/-- Python `float(s)` for plain decimal literals, as an exact rational.
`inf`/`nan`/underscores are modelled as unparseable. -/
def pyFloat? (s : String) : Option ℚ :=
  let cs := trimPySpaces s.data
  if cs.isEmpty then none
  else
    let (neg, cs1) := readSignChar cs
    match parseDecimalPart cs1 with
    | none => none
    | some (mp, cs2) =>
      match parseExpPart cs2 with
      | none => none
      | some (e, cs3) =>
        if cs3.isEmpty then some (decimalValue neg mp.1 mp.2 e) else none

/-! ## SHA-256 (FIPS 180-4) over byte lists, arithmetic in `Nat` mod 2^32 -/

def w32 (n : Nat) : Nat := n % 4294967296

def rotr32 (k x : Nat) : Nat := w32 (Nat.lor (Nat.shiftRight x k) (Nat.shiftLeft x (32 - k)))

def shaCh (x y z : Nat) : Nat := Nat.xor (Nat.land x y) (Nat.land (Nat.xor x 4294967295) z)

def shaMaj (x y z : Nat) : Nat := Nat.xor (Nat.xor (Nat.land x y) (Nat.land x z)) (Nat.land y z)

def bigSigma0 (x : Nat) : Nat := Nat.xor (Nat.xor (rotr32 2 x) (rotr32 13 x)) (rotr32 22 x)

def bigSigma1 (x : Nat) : Nat := Nat.xor (Nat.xor (rotr32 6 x) (rotr32 11 x)) (rotr32 25 x)

def smallSigma0 (x : Nat) : Nat := Nat.xor (Nat.xor (rotr32 7 x) (rotr32 18 x)) (Nat.shiftRight x 3)

def smallSigma1 (x : Nat) : Nat := Nat.xor (Nat.xor (rotr32 17 x) (rotr32 19 x)) (Nat.shiftRight x 10)

def shaK : List Nat := [
  1116352408, 1899447441, 3049323471, 3921009573, 961987163, 1508970993, 2453635748,
  2870763221, 3624381080, 310598401, 607225278, 1426881987, 1925078388, 2162078206, 2614888103,
  3248222580, 3835390401, 4022224774, 264347078, 604807628, 770255983, 1249150122, 1555081692,
  1996064986, 2554220882, 2821834349, 2952996808, 3210313671, 3336571891, 3584528711,
  113926993, 338241895, 666307205, 773529912, 1294757372, 1396182291, 1695183700, 1986661051,
  2177026350, 2456956037, 2730485921, 2820302411, 3259730800, 3345764771, 3516065817,
  3600352804, 4094571909, 275423344, 430227734, 506948616, 659060556, 883997877, 958139571,
  1322822218, 1537002063, 1747873779, 1955562222, 2024104815, 2227730452, 2361852424,
  2428436474, 2756734187, 3204031479, 3329325298]

def shaH0 : List Nat := [
  1779033703, 3144134277, 1013904242, 2773480762, 1359893119, 2600822924, 528734635, 1541459225]

/-- FIPS 180-4 padding: append `0x80`, zeros to 56 mod 64, then the 8-byte
big-endian bit length. -/
def shaPad (msg : List Nat) : List Nat :=
  let L := msg.length
  let padZeros := (64 + 56 - (L + 1) % 64) % 64
  let bitLen := L * 8
  let lenBytes := [bitLen / 72057594037927936 % 256, bitLen / 281474976710656 % 256,
    bitLen / 1099511627776 % 256, bitLen / 4294967296 % 256, bitLen / 16777216 % 256,
    bitLen / 65536 % 256, bitLen / 256 % 256, bitLen % 256]
  msg ++ [128] ++ List.replicate padZeros 0 ++ lenBytes

/-- Group bytes into big-endian 32-bit words. -/
def bytesToWords : List Nat → List Nat
  | a :: b :: c :: d :: rest => (a * 16777216 + b * 65536 + c * 256 + d) :: bytesToWords rest
  | _ => []

/-- Split a word list into 16-word blocks (accumulator holds the current block
reversed, so the recursion is structural and kernel-reducible). -/
def chunkWords (acc : List Nat) : List Nat → List (List Nat)
  | [] => if acc.isEmpty then [] else [acc.reverse]
  | wv :: rest =>
    let acc' := wv :: acc
    if acc'.length = 16 then acc'.reverse :: chunkWords [] rest
    else chunkWords acc' rest

def toBlocks (ws : List Nat) : List (List Nat) := chunkWords [] ws

/-- Extend a 16-word block to the 64-word message schedule. -/
def extendSchedule (acc : List Nat) : Nat → List Nat
  | 0 => acc
  | n + 1 =>
    let i := acc.length
    let wNew := w32 (smallSigma1 (acc.getD (i - 2) 0) + acc.getD (i - 7) 0 +
      smallSigma0 (acc.getD (i - 15) 0) + acc.getD (i - 16) 0)
    extendSchedule (acc ++ [wNew]) n

def shaRound (st : List Nat) (kw : Nat × Nat) : List Nat :=
  match st with
  | [a, b, c, d, e, f, g, h] =>
    let t1 := w32 (h + bigSigma1 e + shaCh e f g + kw.1 + kw.2)
    let t2 := w32 (bigSigma0 a + shaMaj a b c)
    [w32 (t1 + t2), a, b, c, w32 (d + t1), e, f, g]
  | _ => st

def compressBlock (hs : List Nat) (block : List Nat) : List Nat :=
  let ws := extendSchedule block 48
  let st := (shaK.zip ws).foldl (fun s kw => shaRound s kw) hs
  (hs.zip st).map (fun p => w32 (p.1 + p.2))

def sha256Bytes (msg : List Nat) : List Nat :=
  let blocks := toBlocks (bytesToWords (shaPad msg))
  let hs := blocks.foldl compressBlock shaH0
  hs.flatMap (fun wv => [wv / 16777216 % 256, wv / 65536 % 256, wv / 256 % 256, wv % 256])

def hexChar (n : Nat) : Char := if n < 10 then Char.ofNat (48 + n) else Char.ofNat (87 + n)

def bytesToHex (bs : List Nat) : String :=
  String.mk (bs.flatMap (fun b => [hexChar (b / 16), hexChar (b % 16)]))

/-- UTF-8 encoding of one character (`str.encode()`). -/
def utf8Char (c : Char) : List Nat :=
  let n := c.toNat
  if n < 128 then [n]
  else if n < 2048 then [192 + n / 64, 128 + n % 64]
  else if n < 65536 then [224 + n / 4096, 128 + n / 64 % 64, 128 + n % 64]
  else [240 + n / 262144, 128 + n / 4096 % 64, 128 + n / 64 % 64, 128 + n % 64]

def utf8Bytes (s : String) : List Nat := s.data.flatMap utf8Char

/-- `hashlib.sha256(s.encode()).hexdigest()`. -/
def sha256Hex (s : String) : String := bytesToHex (sha256Bytes (utf8Bytes s))

/-! ## `sarif_normalize.py` — severity normalization -/

def NORMALIZED_SEVERITIES : List String := ["CRITICAL", "HIGH", "MED", "LOW", "INFO"]

/-- Python slice `s[:n]` (by code points). -/
def strTake (s : String) (n : Nat) : String := String.mk (s.data.take n)

/-- `_normalize_severity` (sarif_normalize.py lines 12-34). -/
def _normalize_severity (tool : String) (raw : Option String) (cvss : Option String) : String :=
  let rawU := pyUpper (pyOrOpt raw "")
  if tool = "osv" then
    match cvss with
    | none => "MED"
    | some c =>
      if c = "" then "MED"
      else
        match pyFloat? c with
        | some v =>
          if 9 ≤ v then "CRITICAL"
          else if 7 ≤ v then "HIGH"
          else if 4 ≤ v then "MED"
          else "LOW"
        | none => "MED"
  else if tool = "semgrep" then
    if rawU = "ERROR" then "HIGH"
    else if rawU = "WARNING" then "MED"
    else if rawU = "INFO" then "INFO"
    else "MED"
  else if tool = "codeql" then
    let rawL := pyLower rawU
    if rawL = "error" then "HIGH"
    else if rawL = "warning" then "MED"
    else if rawL = "recommendation" then "LOW"
    else if rawL = "note" then "INFO"
    else "MED"
  else "MED"

/-- Modelled from the spec: the severity-normalization table of §4.5, written
directly from the spec's words, with the raw level compared case-insensitively
(via lower-casing) and `cvss` parsed as an exact decimal. Used only to compare
against `_normalize_severity`, which is embedded from the source. -/
def specSeverity (tool : String) (raw : Option String) (cvss : Option String) : String :=
  let rawL := pyLower (raw.getD "")
  if tool = "osv" then
    match cvss with
    | none => "MED"
    | some c =>
      match pyFloat? c with
      | some v =>
        if 9 ≤ v then "CRITICAL"
        else if 7 ≤ v then "HIGH"
        else if 4 ≤ v then "MED"
        else "LOW"
      | none => "MED"
  else if tool = "semgrep" then
    if rawL = "error" then "HIGH"
    else if rawL = "warning" then "MED"
    else if rawL = "info" then "INFO"
    else "MED"
  else if tool = "codeql" then
    if rawL = "error" then "HIGH"
    else if rawL = "warning" then "MED"
    else if rawL = "recommendation" then "LOW"
    else if rawL = "note" then "INFO"
    else "MED"
  else "MED"

/-! ## `sarif_normalize.py` — fingerprint -/

/-- f-string rendering of `path` (a `str | None`). -/
def optStrRepr (o : Option String) : String :=
  match o with
  | none => "None"
  | some s => s

/-- f-string rendering of `start`/`end` (an `int | None`). -/
def optIntRepr (o : Option ℤ) : String :=
  match o with
  | none => "None"
  | some i => toString i

/-- The f-string `f"{tool}:{rule_id}:{path}:{start}:{end}:{msg}"`. -/
def fpPreimage (tool rule_id : String) (path : Option String)
    (startL endL : Option ℤ) (msg : String) : String :=
  tool ++ ":" ++ rule_id ++ ":" ++ optStrRepr path ++ ":" ++
    optIntRepr startL ++ ":" ++ optIntRepr endL ++ ":" ++ msg

/-- `_fingerprint` (sarif_normalize.py lines 37-39). -/
def _fingerprint (tool rule_id : String) (path : Option String)
    (startL endL : Option ℤ) (msg : String) : String :=
  strTake (sha256Hex (fpPreimage tool rule_id path startL endL msg)) 32

/-! ## Typed SARIF documents

JSON dicts are modelled as structures of the fields `parse_sarif_to_findings`
reads; a missing key is `none`.  `propsCvss` is `some s` exactly when the
corresponding `properties` value is a dict containing the key `"cvss"`, with
`s` its `str()` rendering; `codeFlows` is `some s` exactly when the result has
a truthy `codeFlows` value, with `s` its (untruncated) `json.dumps` rendering. -/

structure SarifRule where
  id : Option String
  shortDescriptionText : Option String
  fullDescriptionText : Option String
  helpTextField : Option String
  helpUri : Option String
  propsCvss : Option String
deriving DecidableEq

/-- A result's `message` value: absent, a dict, or another JSON scalar
(`other s` carries the `str()` rendering of a truthy value; a falsy value
renders as `other ""` since the code computes `str(msg_obj or "")`). -/
inductive SarifMessage
  | absent
  | dict (text markdown : Option String)
  | other (s : String)
deriving DecidableEq

structure SarifLocation where
  uri : Option String
  startLine : Option ℤ
  endLine : Option ℤ
deriving DecidableEq

structure SarifResult where
  ruleId : Option String
  message : SarifMessage
  level : Option String
  locations : List SarifLocation
  propsCvss : Option String
  codeFlows : Option String
deriving DecidableEq

structure SarifRun where
  rules : List SarifRule
  results : List SarifResult
deriving DecidableEq

structure SarifDoc where
  runs : List SarifRun
deriving DecidableEq

/-- One canonical finding row (the dict built at sarif_normalize.py lines 85-100;
`scan_run_id` is attached by the worker and omitted in this single-run model). -/
structure Finding where
  tool : String
  rule_id : Option String
  title : Option String
  severity_raw : Option String
  severity_normalized : String
  cvss : Option String
  cwe : Option String
  confidence : Option String
  path : Option String
  start_line : Option ℤ
  end_line : Option ℤ
  fingerprint : String
  help_text : Option String
  codeql_trace : Option String
deriving DecidableEq

/-- `s[:n] if s else None`. -/
def truncOpt (s : String) (n : Nat) : Option String :=
  if s = "" then none else some (strTake s n)

/-- `x[:n] if x else None` for `x : str | None`. -/
def truncOptOpt (o : Option String) (n : Nat) : Option String :=
  match o with
  | none => none
  | some s => truncOpt s n

/-- Python `a or b` where `a : int | None` is falsy when `None` or `0`. -/
def pyOrOptInt (o : Option ℤ) (fb : Option ℤ) : Option ℤ :=
  match o with
  | none => fb
  | some v => if v = 0 then fb else some v

/-- `{r.get("id"): r for r in rules}` followed by `.get(rule_id)`: the last
rule whose `id` equals the key wins. -/
def lookupRule (rules : List SarifRule) (rid : String) : Option SarifRule :=
  rules.reverse.find? (fun r => r.id = some rid)

def emptyRule : SarifRule := ⟨none, none, none, none, none, none⟩

def emptyLocation : SarifLocation := ⟨none, none, none⟩

/-- The message text computed at sarif_normalize.py lines 58-62. -/
def messageText : SarifMessage → String
  | .absent => ""
  | .dict text markdown => pyOrOpt text (pyOrOpt markdown "")
  | .other s => s

/-- Body of the inner result loop (sarif_normalize.py lines 55-100). -/
def parseResult (tool : String) (rules : List SarifRule) (r : SarifResult) : Finding :=
  let rule_id := pyOrOpt r.ruleId ""
  let rule := (lookupRule rules rule_id).getD emptyRule
  let msg := messageText r.message
  let title := pyOrOpt rule.shortDescriptionText (strTake msg 512)
  let help_uri := pyOrOpt rule.helpUri ""
  let help_text := pyOrOpt rule.fullDescriptionText (pyOrOpt rule.helpTextField help_uri)
  let level := pyLower (pyOrOpt r.level "warning")
  let loc := r.locations.headD emptyLocation
  let path_val := pyOrOpt loc.uri ""
  let start_line := loc.startLine
  let end_line := pyOrOptInt loc.endLine start_line
  let cvss : Option String :=
    match r.propsCvss with
    | some c => some c
    | none => rule.propsCvss
  let severity_raw : Option String := if level = "" then r.level else some level
  let severity_norm := _normalize_severity tool severity_raw cvss
  let fingerprint := _fingerprint tool rule_id (some path_val) start_line end_line msg
  let codeql_trace : Option String :=
    if tool = "codeql" then r.codeFlows.map (fun s => strTake s 8000) else none
  { tool := tool
    rule_id := truncOpt rule_id 255
    title := truncOpt title 512
    severity_raw := truncOptOpt severity_raw 64
    severity_normalized := severity_norm
    cvss := truncOptOpt cvss 32
    cwe := none
    confidence := none
    path := truncOpt path_val 1024
    start_line := start_line
    end_line := end_line
    fingerprint := fingerprint
    help_text := truncOpt help_text 10000
    codeql_trace := codeql_trace }

def parseRun (tool : String) (run : SarifRun) : List Finding :=
  run.results.map (parseResult tool run.rules)

/-- Outcome of opening + `json.load`ing a path: not a file at all, or a file
of a given size whose JSON content is `some doc` (well-formed) or `none`
(reading/parsing raises, caught by the caller's `except`). -/
inductive FileKind
  | notFile
  | file (size : Nat) (content : Option SarifDoc)
deriving DecidableEq

/-- A file-system oracle. -/
def FS : Type := String → FileKind

/-- `parse_sarif_to_findings` (sarif_normalize.py lines 42-101): any exception
while opening/parsing yields the empty findings list. -/
def parse_sarif_to_findings (fk : FileKind) (tool : String) : List Finding :=
  match fk with
  | .notFile => []
  | .file _ none => []
  | .file _ (some doc) => doc.runs.flatMap (parseRun tool)

/-! ## `sarif_normalize.py` — merge -/

def sarifSchemaUrl : String :=
  "https://raw.githubusercontent.com/oasis-tcs/sarif-spec/master/Schemata/sarif-schema-2.1.0.json"

structure MergedSarif where
  schemaUrl : String
  version : String
  runs : List SarifRun
deriving DecidableEq

/-- The contribution of one input path to the merged `runs` array
(the loop body of sarif_normalize.py lines 107-115: empty paths, non-files
and unreadable/unparseable files are skipped). -/
def readRuns (fs : FS) (p : String) : List SarifRun :=
  if p = "" then []
  else
    match fs p with
    | .notFile => []
    | .file _ none => []
    | .file _ (some d) => d.runs

/-- `merge_sarif_runs` (sarif_normalize.py lines 104-123).  Returns whether an
output file was written, and its content; writing the output file is modelled
as reliable. -/
def merge_sarif_runs (fs : FS) (paths : List String) : Bool × Option MergedSarif :=
  let rs := paths.foldl (fun acc p => acc ++ readRuns fs p) []
  if rs.isEmpty then (false, none)
  else (true, some ⟨sarifSchemaUrl, "2.1.0", rs⟩)

/-- The concatenated `runs` arrays of the well-formed inputs, in list order. -/
def collectRuns (fs : FS) (paths : List String) : List SarifRun :=
  paths.flatMap (readRuns fs)

/-! ## `scanner_runner.py` -/

/-- Outcome of one `subprocess.run` call: completed with a return code and
captured stdout/stderr, timed out, binary absent (`FileNotFoundError`), or
some other exception with its message. -/
inductive ProcResult
  | completed (returncode : ℤ) (stdout stderr : String)
  | timedOut
  | notFound
  | raised (msg : String)
deriving DecidableEq

/-- `_run` (scanner_runner.py lines 13-30). -/
def _run (res : ProcResult) : Bool × String :=
  match res with
  | .completed rc out err => (rc == 0, out ++ err)
  | .timedOut => (false, "timeout")
  | .notFound => (false, "command not found")
  | .raised m => (false, m)

def isFile (fs : FS) (p : String) : Bool :=
  match fs p with
  | .notFile => false
  | .file _ _ => true

def fileSize (fs : FS) (p : String) : Nat :=
  match fs p with
  | .notFile => 0
  | .file sz _ => sz

def osvPhrases : List String :=
  ["no lockfile", "no package", "no supported", "no dependency", "no manifest",
   "no files to scan"]

/-- `run_osv` (scanner_runner.py lines 33-50). -/
def run_osv (fs : FS) (workDir : String) (proc : ProcResult) :
    Bool × String × Option String :=
  let out_path := workDir ++ "/osv.sarif"
  let (ok, out) := _run proc
  if ok && isFile fs out_path then (true, pyOr out "ok", some out_path)
  else
    let out_lower := pyLower out
    let no_deps := osvPhrases.any (fun ph => strContains out_lower ph)
    if no_deps then (true, "No supported dependency files in this repo.", none)
    else (false, pyOr out "no output file", none)

/-- `run_semgrep` (scanner_runner.py lines 53-65). -/
def run_semgrep (fs : FS) (workDir : String) (proc : ProcResult) :
    Bool × String × Option String :=
  let out_path := workDir ++ "/semgrep.sarif"
  let (ok, out) := _run proc
  if ok && isFile fs out_path then (true, pyOr out "ok", some out_path)
  else if isFile fs out_path && 0 < fileSize fs out_path then
    (true, strTake (pyOr out "ok") 8000, some out_path)
  else (false, pyOr out "no output file", none)

/-- `run_codeql` (scanner_runner.py lines 68-120); binary resolution and the
database-directory cleanup have no observable effect in this model. -/
def run_codeql (fs : FS) (workDir : String) (createProc analyzeProc : ProcResult) :
    Bool × String × Option String :=
  let out_path := workDir ++ "/codeql.sarif"
  let (okC, outC) := _run createProc
  if !okC then
    let msg := pyOr outC "codeql database create failed"
    let msg :=
      if pyStrip msg = "command not found" then
        "CodeQL CLI not found (set CODEQL_HOME or add codeql to PATH)."
      else msg
    (false, msg, none)
  else
    let (okA, outA) := _run analyzeProc
    if okA && isFile fs out_path then (true, pyOr outA "ok", some out_path)
    else (false, pyOr outA "no output file", none)

/-- `run_sonar` (scanner_runner.py lines 123-143). -/
def run_sonar (configured : Bool) (proc : ProcResult) : Bool × String × Option String :=
  if !configured then (true, "Skipped: SONAR_HOST_URL or SONAR_TOKEN not set.", none)
  else
    let (ok, out) := _run proc
    (ok, out, none)

/-! ## `worker.py` — archive download -/

def archiveSizeError (maxBytes : Nat) : String :=
  "Archive exceeds max size (" ++ toString maxBytes ++ " bytes)"

/-- The chunk loop of `_download_repo_archive` (worker.py lines 31-39). -/
def downloadLoop (maxBytes : Nat) : List (List Nat) → Nat → List Nat → Except String (List Nat)
  | [], _, acc => .ok acc
  | c :: rest, total, acc =>
    if c.isEmpty then downloadLoop maxBytes rest total acc
    else
      let total' := total + c.length
      if maxBytes < total' then .error (archiveSizeError maxBytes)
      else downloadLoop maxBytes rest total' (acc ++ c)

/-- `_download_repo_archive` (worker.py lines 26-39): an HTTP-level failure
(`raise_for_status` or a transport error) is `httpError`; otherwise the body
is streamed in chunks. -/
def _download_repo_archive (httpError : Option String) (chunks : List (List Nat))
    (maxBytes : Nat) : Except String (List Nat) :=
  match httpError with
  | some e => .error e
  | none => downloadLoop maxBytes chunks 0 []

/-! ## `worker.py` — database rows and operations -/

structure StageRec where
  stage : String
  started_at : ℚ
  ended_at : Option ℚ
  error_message : Option String
deriving DecidableEq

structure RunRecord where
  status : String
  current_stage : Option String
  started_at : Option ℚ
  ended_at : Option ℚ
  error_message : Option String
  result_summary : Option String
deriving DecidableEq

/-- The state of one ScanRun and its dependent rows (artifact rows are
tracked by name; their text content does not influence any claim). -/
structure DBState where
  run : RunRecord
  stages : List StageRec
  findings : List Finding
  artifacts : List String
deriving DecidableEq

/-- The write operations the core performs against the catalog store. -/
inductive Op
  | claimRun (t : ℚ)
  | stageStart (stage : String) (t : ℚ)
  | stageEnd (stage : String) (tEnd : ℚ) (err : Option String)
  | addFinding (f : Finding)
  | addArtifact (name : String)
  | setCompleted (t : ℚ) (summary : String)
  | setFailed (t : ℚ) (msg : String)
deriving DecidableEq

/-- Update the most recent stage row named `stage` (the
`order_by(started_at.desc()).first()` row of worker.py line 48; rows are
appended chronologically, so it is the last match). -/
def updateLastStage (stage : String) (tEnd : ℚ) (err : Option String) :
    List StageRec → List StageRec
  | [] => []
  | r :: rest =>
    if rest.any (fun x => x.stage = stage) then r :: updateLastStage stage tEnd err rest
    else if r.stage = stage then
      { r with ended_at := some tEnd, error_message := err } :: rest
    else r :: rest

/-- One operation against the store.  `claimRun` is the dispatcher's claim
(worker.py lines 214-225): it only touches a `queued` run.  `stageStart` and
`stageEnd` are the two modes of `_record_stage` (lines 42-53); both set the
parent's `current_stage`.  `setCompleted` is the finalize transaction (lines
183-188); `setFailed` is the repo-missing branch (lines 72-74) and the
exception handler (lines 193-198). -/
def stepOp (s : DBState) : Op → DBState
  | .claimRun t =>
    if s.run.status = "queued" then
      { s with run := { s.run with status := "running", started_at := some t } }
    else s
  | .stageStart st t =>
    { s with run := { s.run with current_stage := some st },
             stages := s.stages ++ [⟨st, t, none, none⟩] }
  | .stageEnd st tEnd err =>
    { s with run := { s.run with current_stage := some st },
             stages := updateLastStage st tEnd err s.stages }
  | .addFinding f => { s with findings := s.findings ++ [f] }
  | .addArtifact n => { s with artifacts := s.artifacts ++ [n] }
  | .setCompleted t summary =>
    { s with
      run := { s.run with
        status := "completed"
        ended_at := some t
        current_stage := some "finalize"
        result_summary := some summary } }
  | .setFailed t msg =>
    { s with
      run := { s.run with
        status := "failed"
        error_message := some msg
        ended_at := some t } }

def applyOps (ops : List Op) (s : DBState) : DBState := ops.foldl stepOp s

/-- A run just claimed by the dispatcher: `running`, `started_at` set. -/
def initDB (tStart : ℚ) : DBState :=
  ⟨⟨"running", none, some tStart, none, none, none⟩, [], [], []⟩

/-! ## `worker.py` — the pipeline -/

/-- Everything outside the program that `_run_scan_job` observes: DB lookups,
the token broker, the HTTP stream, wall-clock samples (`t0` is `time.time()`
at entry; `tc1`-`tc4` are the four `timeout_check` calls at worker.py lines
82, 87, 122 and 130; the `tX` fields are the `datetime.utcnow()` samples),
subprocess outcomes, and the scratch file system. -/
structure Env where
  runExists : Bool
  repoExists : Bool
  token : Except String Unit
  httpError : Option String
  chunks : List (List Nat)
  maxArchiveBytes : Nat
  jobTimeout : ℚ
  t0 : ℚ
  tc1 : ℚ
  tc2 : ℚ
  tc3 : ℚ
  tc4 : ℚ
  workDir : String
  osvProc : ProcResult
  semgrepProc : ProcResult
  codeqlCreateProc : ProcResult
  codeqlAnalyzeProc : ProcResult
  sonarProc : ProcResult
  sonarConfigured : Bool
  osvCompletesFirst : Bool
  fs : FS
  tFetchStart : ℚ
  tFetchEnd : ℚ
  tScanStart : ℚ
  tOsvEnd : ℚ
  tSemEnd : ℚ
  tCqlStart : ℚ
  tCqlEnd : ℚ
  tSonarStart : ℚ
  tSonarEnd : ℚ
  tNormStart : ℚ
  tNormEnd : ℚ
  tFinStart : ℚ
  tCompleted : ℚ
  tFinEnd : ℚ
  tFailed : ℚ

/-- Exact rational subtraction, spelled out so that it evaluates by kernel
reduction (Batteries marks `Rat.sub` irreducible). -/
def qsub (a b : ℚ) : ℚ := mkRat (a.num * b.den - b.num * a.den) (a.den * b.den)

/-- `timeout_check` (worker.py lines 61-63) observed at wall-clock `t`:
`time.time() - started_global > JOB_TIMEOUT_SECONDS`. -/
def timeoutFires (env : Env) (t : ℚ) : Bool := env.jobTimeout < qsub t env.t0

/-- One step of the result-dispatch loop (worker.py lines 113-121): a result
whose path is truthy and contains `"osv"` lands in the OSV slot, every other
result lands in the Semgrep slot. -/
def dispatchOne (slots : (Bool × String × Option String) × (Bool × String × Option String))
    (r : Bool × String × Option String) :
    (Bool × String × Option String) × (Bool × String × Option String) :=
  match r.2.2 with
  | some p => if p ≠ "" ∧ strContains p "osv" then (r, slots.2) else (slots.1, r)
  | none => (slots.1, r)

/-- The parallel `sca_osv`/`sast_semgrep` pair (worker.py lines 98-121):
both drivers run, then their results are dispatched in completion order. -/
def scanPair (env : Env) :
    (Bool × String × Option String) × (Bool × String × Option String) :=
  let rOsv := run_osv env.fs env.workDir env.osvProc
  let rSem := run_semgrep env.fs env.workDir env.semgrepProc
  let init : (Bool × String × Option String) × (Bool × String × Option String) :=
    ((false, "", none), (false, "", none))
  let first := if env.osvCompletesFirst then rOsv else rSem
  let second := if env.osvCompletesFirst then rSem else rOsv
  dispatchOne (dispatchOne init first) second

/-- The `(tool, path)` pairs whose SARIF file is present
(worker.py lines 142-144). -/
def availPairs (fs : FS) : List (String × Option String) → List (String × String)
  | [] => []
  | tp :: rest =>
    (match tp.2 with
     | some p => if p ≠ "" ∧ isFile fs p then [(tp.1, p)] else []
     | none => []) ++ availPairs fs rest

def summaryText (n : Nat) (osv_ok sem_ok cql_ok : Bool) : String :=
  "Scans completed. Normalized findings: " ++ toString n ++ ". OSV: " ++
    (if osv_ok then "ok" else "skip") ++ ", Semgrep: " ++
    (if sem_ok then "ok" else "skip") ++ ", CodeQL: " ++
    (if cql_ok then "ok" else "skip") ++ "."

/-- Whether `merge_sarif_runs` writes the merged output for the available
SARIF files (worker.py lines 148-150); the merged path is fresh in the scratch
directory, so `os.path.isfile(merged_path)` holds exactly when the merge wrote
it. -/
def mergedWrittenPaths (fs : FS) (osv_path sem_path cql_path : Option String) : Bool :=
  let sarif_paths :=
    (availPairs fs [("osv", osv_path), ("semgrep", sem_path), ("codeql", cql_path)]).map
      (fun tp => tp.2)
  if !sarif_paths.isEmpty then (merge_sarif_runs fs sarif_paths).1 else false

/-- The normalize + finalize tail of the pipeline (worker.py lines 138-189). -/
def tailOps (env : Env) (osv_ok sem_ok cql_ok : Bool)
    (osv_path sem_path cql_path : Option String) : List Op :=
  let pairs := [("osv", osv_path), ("semgrep", sem_path), ("codeql", cql_path)]
  let avail := availPairs env.fs pairs
  let findings := avail.flatMap (fun tp => parse_sarif_to_findings (env.fs tp.2) tp.1)
  let mergedWritten := mergedWrittenPaths env.fs osv_path sem_path cql_path
  let artPairs := [("osv.sarif", osv_path), ("semgrep.sarif", sem_path), ("codeql.sarif", cql_path)]
  let artOps := (availPairs env.fs artPairs).map (fun tp => Op.addArtifact tp.1)
  [Op.stageStart "sonarqube_publish" env.tSonarStart] ++
  (let rSonar := run_sonar env.sonarConfigured env.sonarProc
   [Op.stageEnd "sonarqube_publish" env.tSonarEnd
      (if rSonar.1 then none else some rSonar.2.1)]) ++
  [Op.stageStart "normalize" env.tNormStart] ++
  findings.map Op.addFinding ++
  artOps ++
  (if mergedWritten then [Op.addArtifact "merged.sarif"] else []) ++
  [Op.stageEnd "normalize" env.tNormEnd none,
   Op.stageStart "finalize" env.tFinStart,
   Op.setCompleted env.tCompleted (summaryText findings.length osv_ok sem_ok cql_ok),
   Op.stageEnd "finalize" env.tFinEnd none]

/-- The scanner stages onward (worker.py lines 98-189). -/
def scanOps (env : Env) : List Op :=
  let pair := scanPair env
  let osv_ok := pair.1.1
  let osv_msg := pair.1.2.1
  let sem_ok := pair.2.1
  let sem_msg := pair.2.2.1
  [Op.stageStart "sca_osv" env.tScanStart, Op.stageStart "sast_semgrep" env.tScanStart] ++
  (if timeoutFires env env.tc3 then [Op.setFailed env.tFailed "Job timeout"]
   else
     [Op.stageEnd "sca_osv" env.tOsvEnd (if osv_ok then none else some osv_msg),
      Op.stageEnd "sast_semgrep" env.tSemEnd (if sem_ok then none else some sem_msg),
      Op.stageStart "semantic_codeql" env.tCqlStart] ++
     (let rCql := run_codeql env.fs env.workDir env.codeqlCreateProc env.codeqlAnalyzeProc
      [Op.stageEnd "semantic_codeql" env.tCqlEnd (if rCql.1 then none else some rCql.2.1)] ++
      (if timeoutFires env env.tc4 then [Op.setFailed env.tFailed "Job timeout"]
       else tailOps env osv_ok sem_ok rCql.1 pair.1.2.2 pair.2.2.2 rCql.2.2)))

/-- The operation trace of `_run_scan_job` (worker.py lines 56-206).  Any
exception raised inside the `try` block lands in the handler (lines 190-200),
which marks the run failed; the scratch-directory cleanup touches no DB
state. -/
def runScanJobOps (env : Env) : List Op :=
  if !env.runExists then []
  else if !env.repoExists then [Op.setFailed env.tFailed "repo not found"]
  else
    match env.token with
    | .error e => [Op.setFailed env.tFailed e]
    | .ok _ =>
      if timeoutFires env env.tc1 then [Op.setFailed env.tFailed "Job timeout"]
      else
        [Op.stageStart "fetch_repo" env.tFetchStart] ++
        (match _download_repo_archive env.httpError env.chunks env.maxArchiveBytes with
         | .error e => [Op.setFailed env.tFailed e]
         | .ok _ =>
           if timeoutFires env env.tc2 then [Op.setFailed env.tFailed "Job timeout"]
           else
             [Op.stageEnd "fetch_repo" env.tFetchEnd none] ++ scanOps env)

/-- The DB state after `_run_scan_job` for a freshly claimed run. -/
def runScanJob (env : Env) (tStart : ℚ) : DBState :=
  applyOps (runScanJobOps env) (initDB tStart)

/-- The most recent stage row with the given name. -/
def lastStage (s : DBState) (st : String) : Option StageRec :=
  s.stages.reverse.find? (fun r => r.stage = st)

/-! ## `db.py` — scoped sessions

`db.py` defines `get_session` twice; the second definition (lines 52-64)
shadows the first, so the effective context manager commits on normal exit
and rolls back and re-raises on exception.  A session's writes are the
pending state; `commit` persists them, `rollback` restores the entry state. -/

def sessionCommit {α : Type} (_entry pending : α) : α := pending

def sessionRollback {α : Type} (entry : α) : α := entry

/-- `get_session` (db.py lines 52-64) applied to a block: returns the
re-raised exception (if any) and the persistent state after the scope. -/
def get_session {α ε : Type} (store : α) (block : α → Except ε α) : Except ε Unit × α :=
  match block store with
  | .ok s => (.ok (), sessionCommit store s)
  | .error e => (.error e, sessionRollback store)

/-! ## Derived observations and support definitions for the claims -/

/-- A ScanRun in a terminal state. -/
def Terminal (s : DBState) : Prop := s.run.status = "completed" ∨ s.run.status = "failed"

instance (s : DBState) : Decidable (Terminal s) := by
  unfold Terminal
  infer_instance

/-- The run fields the terminal-immutability invariant protects
(everything except `result_summary`, which also never changes but is exempted
by the spec; `started_at` is included implicitly by never being written after
the claim). -/
def coreFields (s : DBState) : String × Option String × Option ℚ × Option String :=
  (s.run.status, s.run.current_stage, s.run.ended_at, s.run.error_message)

/-- `p` is a leading segment of `q`. -/
def headsOf {α : Type} (p q : List α) : Prop := ∃ t, p ++ t = q

/-- Once any leading segment of `ops` leaves the run terminal, every longer
leading segment observes the same core fields. -/
def GoodFrom (ops : List Op) (s : DBState) : Prop :=
  ∀ p q, headsOf p q → headsOf q ops → Terminal (applyOps p s) →
    coreFields (applyOps q s) = coreFields (applyOps p s)

/-- The artifact names a trace inserts. -/
def opArtifact : Op → Option String
  | .addArtifact n => some n
  | _ => none

/-- Ops that do not touch the parent run row. -/
def runUntouched : Op → Prop
  | .addFinding _ => True
  | .addArtifact _ => True
  | _ => False

/-- The SARIF paths the normalize stage feeds to the merge
(worker.py lines 141-150), as a function of the environment. -/
def envAvailSarifPaths (env : Env) : List String :=
  (availPairs env.fs
    [("osv", (scanPair env).1.2.2), ("semgrep", (scanPair env).2.2.2),
     ("codeql", (run_codeql env.fs env.workDir env.codeqlCreateProc env.codeqlAnalyzeProc).2.2)]).map
    (fun tp => tp.2)

/-- Whether the normalize stage writes a merged artifact
(worker.py lines 148-150 and 175-178). -/
def mergedWrittenOf (env : Env) : Bool :=
  mergedWrittenPaths env.fs (scanPair env).1.2.2 (scanPair env).2.2.2
    (run_codeql env.fs env.workDir env.codeqlCreateProc env.codeqlAnalyzeProc).2.2

/-- An environment in which the run and repo rows exist, the token is issued,
the download yields one tiny chunk, no deadline is ever exceeded, and none of
the three scanner binaries is on PATH. -/
def c1env : Env where
  runExists := true
  repoExists := true
  token := .ok ()
  httpError := none
  chunks := [[1, 2]]
  maxArchiveBytes := 52428800
  jobTimeout := 600
  t0 := 0
  tc1 := 1
  tc2 := 2
  tc3 := 3
  tc4 := 4
  workDir := "/tmp/asfalis_scan_x/repo"
  osvProc := .notFound
  semgrepProc := .notFound
  codeqlCreateProc := .notFound
  codeqlAnalyzeProc := .notFound
  sonarProc := .notFound
  sonarConfigured := false
  osvCompletesFirst := true
  fs := fun _ => .notFile
  tFetchStart := 1
  tFetchEnd := 2
  tScanStart := 2
  tOsvEnd := 3
  tSemEnd := 3
  tCqlStart := 3
  tCqlEnd := 4
  tSonarStart := 4
  tSonarEnd := 4
  tNormStart := 4
  tNormEnd := 5
  tFinStart := 5
  tCompleted := 5
  tFinEnd := 5
  tFailed := 6

/-- Same environment as a separate definition, used by the terminal-state
claim. -/
def c8env : Env := c1env

/-- Environment whose first timeout checkpoint observes an exceeded budget. -/
def c4env : Env :=
  { c1env with jobTimeout := 600, t0 := 0, tc1 := 601 }

/-- Environment whose download stream exceeds the archive bound. -/
def c5env : Env :=
  { c1env with maxArchiveBytes := 4, chunks := [[1, 2, 3], [4, 5, 6]] }

/-- A file system with one well-formed single-run SARIF file at `"a"`. -/
def c6fs : FS := fun p =>
  if p = "a" then .file 10 (some ⟨[⟨[], []⟩]⟩) else .notFile

/-- A file system mixing a good file, a bad-JSON file and a missing file. -/
def c10fs : FS := fun p =>
  if p = "good" then .file 10 (some ⟨[⟨[], []⟩]⟩)
  else if p = "bad" then .file 3 none
  else .notFile

/-! # Theorems -/

/-! ## Character and string support lemmas -/

theorem char_toNat_ofNat (n : Nat) (h : n.isValidChar) : (Char.ofNat n).toNat = n := by
  simp only [Char.ofNat, h, dif_pos, Char.ofNatAux, Char.toNat]
  rfl

theorem char_toNat_valid (c : Char) : Nat.isValidChar c.toNat := c.valid

theorem char_eq_of_toNat_eq {c d : Char} (h : c.toNat = d.toNat) : c = d := by
  cases c with
  | mk v hv =>
    cases d with
    | mk w hw =>
      have : v = w := UInt32.ext h
      subst this
      rfl

theorem char_ofNat_toNat (c : Char) : Char.ofNat c.toNat = c :=
  char_eq_of_toNat_eq (char_toNat_ofNat _ (char_toNat_valid c))

theorem pyLowerChar_pyUpperChar (c : Char) : pyLowerChar (pyUpperChar c) = pyLowerChar c := by
  unfold pyUpperChar pyLowerChar
  by_cases h : 97 ≤ c.toNat ∧ c.toNat ≤ 122
  · rw [if_pos h]
    have hv : Nat.isValidChar (c.toNat - 32) := Or.inl (by omega)
    rw [char_toNat_ofNat _ hv, if_pos (by omega), if_neg (by omega)]
    have : c.toNat - 32 + 32 = c.toNat := by omega
    rw [this, char_ofNat_toNat]
  · rw [if_neg h]

theorem pyUpperChar_pyLowerChar (c : Char) : pyUpperChar (pyLowerChar c) = pyUpperChar c := by
  unfold pyUpperChar pyLowerChar
  by_cases h : 65 ≤ c.toNat ∧ c.toNat ≤ 90
  · rw [if_pos h]
    have hv : Nat.isValidChar (c.toNat + 32) := Or.inl (by omega)
    rw [char_toNat_ofNat _ hv, if_pos (by omega), if_neg (by omega)]
    have : c.toNat + 32 - 32 = c.toNat := by omega
    rw [this, char_ofNat_toNat]
  · rw [if_neg h]

theorem pyLower_pyUpper (s : String) : pyLower (pyUpper s) = pyLower s := by
  unfold pyLower pyUpper
  simp [List.map_map, Function.comp_def, pyLowerChar_pyUpperChar]

theorem pyUpper_pyLower (s : String) : pyUpper (pyLower s) = pyUpper s := by
  unfold pyLower pyUpper
  simp [List.map_map, Function.comp_def, pyUpperChar_pyLowerChar]

/-- Transfer an upper-case comparison to the equivalent lower-case one. -/
theorem upper_eq_iff_lower_eq {s : String} (t u : String)
    (h1 : pyLower t = u) (h2 : pyUpper u = t) : pyUpper s = t ↔ pyLower s = u := by
  constructor
  · intro h
    rw [← h1, ← h, pyLower_pyUpper]
  · intro h
    rw [← h2, ← h, pyUpper_pyLower]

theorem pyOrOpt_empty (raw : Option String) : pyOrOpt raw "" = raw.getD "" := by
  cases raw with
  | none => rfl
  | some v =>
    simp only [pyOrOpt, pyOr, Option.getD_some]
    split
    · simp_all
    · rfl

/-! ## C2 — severity normalization -/

theorem upper_eq_ERROR (s : String) : pyUpper s = "ERROR" ↔ pyLower s = "error" :=
  upper_eq_iff_lower_eq "ERROR" "error" (by decide) (by decide)

theorem upper_eq_WARNING (s : String) : pyUpper s = "WARNING" ↔ pyLower s = "warning" :=
  upper_eq_iff_lower_eq "WARNING" "warning" (by decide) (by decide)

theorem upper_eq_INFO (s : String) : pyUpper s = "INFO" ↔ pyLower s = "info" :=
  upper_eq_iff_lower_eq "INFO" "info" (by decide) (by decide)

theorem normalize_eq_spec (tool : String) (raw cvss : Option String) :
    _normalize_severity tool raw cvss = specSeverity tool raw cvss := by
  simp only [_normalize_severity, specSeverity, pyOrOpt_empty]
  by_cases h1 : tool = "osv"
  · rw [if_pos h1, if_pos h1]
    cases cvss with
    | none => rfl
    | some c =>
      by_cases hc : c = ""
      · subst hc
        have hp : pyFloat? "" = none := by decide
        simp [hp]
      · simp [hc]
  · rw [if_neg h1, if_neg h1]
    by_cases h2 : tool = "semgrep"
    · rw [if_pos h2, if_pos h2]
      simp only [upper_eq_ERROR, upper_eq_WARNING, upper_eq_INFO]
    · rw [if_neg h2, if_neg h2]
      by_cases h3 : tool = "codeql"
      · rw [if_pos h3, if_pos h3, pyLower_pyUpper]
      · rw [if_neg h3, if_neg h3]

theorem normalize_mem_bands (tool : String) (raw cvss : Option String) :
    _normalize_severity tool raw cvss ∈ NORMALIZED_SEVERITIES := by
  simp only [_normalize_severity, NORMALIZED_SEVERITIES]
  repeat' split
  all_goals simp

theorem parseResult_severity (tool : String) (rules : List SarifRule) (r : SarifResult) :
    ∃ raw cvss, (parseResult tool rules r).severity_normalized = _normalize_severity tool raw cvss :=
  ⟨_, _, rfl⟩

/-- C2: for every tool tag and raw level/cvss input, `_normalize_severity`
computes exactly the spec's tool-specific table (SCA thresholds on the decimal
cvss with MED fallback; pattern-SAST and semantic-SAST level maps compared
case-insensitively; MED for other tools), and its output — hence the
`severity_normalized` of every parsed SARIF result — is always one of the five
canonical bands. -/
theorem severity_normalization_table :
    (∀ tool raw cvss, _normalize_severity tool raw cvss = specSeverity tool raw cvss) ∧
    (∀ tool raw cvss, _normalize_severity tool raw cvss ∈ NORMALIZED_SEVERITIES) ∧
    (∀ tool fk f, f ∈ parse_sarif_to_findings fk tool →
      f.severity_normalized ∈ NORMALIZED_SEVERITIES) := by
  refine ⟨normalize_eq_spec, normalize_mem_bands, ?_⟩
  intro tool fk f hf
  cases fk with
  | notFile => simp [parse_sarif_to_findings] at hf
  | file sz content =>
    cases content with
    | none => simp [parse_sarif_to_findings] at hf
    | some doc =>
      simp only [parse_sarif_to_findings, List.mem_flatMap] at hf
      obtain ⟨run, _, hf2⟩ := hf
      simp only [parseRun, List.mem_map] at hf2
      obtain ⟨r, _, rfl⟩ := hf2
      obtain ⟨raw, cvss, heq⟩ := parseResult_severity tool run.rules r
      rw [heq]
      exact normalize_mem_bands tool raw cvss

theorem severity_normalization_table_witness :
    (parseResult "semgrep" []
      ⟨some "r1", .dict (some "boom") none, some "error", [], none, none⟩).severity_normalized ∈
      NORMALIZED_SEVERITIES :=
  severity_normalization_table.2.2 "semgrep"
    (.file 5 (some ⟨[⟨[], [⟨some "r1", .dict (some "boom") none, some "error", [], none, none⟩]⟩]⟩))
    (parseResult "semgrep" [] ⟨some "r1", .dict (some "boom") none, some "error", [], none, none⟩)
    (by decide)

/-! ## C3 — fingerprints -/

theorem sha256Hex_fips_abc :
    sha256Hex "abc" = "ba7816bf8f01cfea414140de5dae2223b00361a396177a9cb410ff61f20015ad" := by
  decide

theorem sha256Hex_fips_empty :
    sha256Hex "" = "e3b0c44298fc1c149afbf4c8996fb92427ae41e4649b934ca495991b7852b855" := by
  decide

/-- Cross-checked against `hashlib.sha256` on the same preimage. -/
theorem fingerprint_concrete_value :
    _fingerprint "semgrep" "py.rule" (some "app/a.py") (some 3) (some 7) "bad call" =
      "252202449720d6d53fe0eb3dcf7436c2" := by
  decide

/-- C3: the finding fingerprint is the first 32 hex characters of the SHA-256
digest of `"tool:rule_id:path:start:end:msg"`, and is a deterministic function
of those six inputs. -/
theorem fingerprint_sha256_deterministic :
    (∀ tool rule_id path startL endL msg,
      _fingerprint tool rule_id path startL endL msg =
        strTake (sha256Hex (fpPreimage tool rule_id path startL endL msg)) 32) ∧
    (∀ t₁ r₁ p₁ s₁ e₁ m₁ t₂ r₂ p₂ s₂ e₂ m₂,
      t₁ = t₂ → r₁ = r₂ → p₁ = p₂ → s₁ = s₂ → e₁ = e₂ → m₁ = m₂ →
      _fingerprint t₁ r₁ p₁ s₁ e₁ m₁ = _fingerprint t₂ r₂ p₂ s₂ e₂ m₂) := by
  constructor
  · intro tool rule_id path startL endL msg
    rfl
  · intro t₁ r₁ p₁ s₁ e₁ m₁ t₂ r₂ p₂ s₂ e₂ m₂ h1 h2 h3 h4 h5 h6
    subst h1; subst h2; subst h3; subst h4; subst h5; subst h6
    rfl

theorem fingerprint_sha256_deterministic_witness :
    _fingerprint "osv" "CVE-2024-1" (some "requirements.txt") none none "vuln dep" =
      strTake (sha256Hex (fpPreimage "osv" "CVE-2024-1" (some "requirements.txt") none none
        "vuln dep")) 32 ∧
    _fingerprint "osv" "CVE-2024-1" (some "requirements.txt") none none "vuln dep" =
      _fingerprint "osv" "CVE-2024-1" (some "requirements.txt") none none "vuln dep" :=
  ⟨fingerprint_sha256_deterministic.1 "osv" "CVE-2024-1" (some "requirements.txt") none none
      "vuln dep",
   fingerprint_sha256_deterministic.2 "osv" "CVE-2024-1" (some "requirements.txt") none none
      "vuln dep" "osv" "CVE-2024-1" (some "requirements.txt") none none "vuln dep"
      rfl rfl rfl rfl rfl rfl⟩

/-! ## Merge support lemmas -/

theorem merge_foldl_eq (fs : FS) (paths : List String) (acc : List SarifRun) :
    paths.foldl (fun a p => a ++ readRuns fs p) acc = acc ++ collectRuns fs paths := by
  induction paths generalizing acc with
  | nil => simp [collectRuns]
  | cons p rest ih => simp [collectRuns, ih, List.flatMap_cons, List.append_assoc]

theorem merge_runs_char (fs : FS) (paths : List String) :
    merge_sarif_runs fs paths =
      (if (collectRuns fs paths).isEmpty then (false, none)
       else (true, some ⟨sarifSchemaUrl, "2.1.0", collectRuns fs paths⟩)) := by
  unfold merge_sarif_runs
  rw [merge_foldl_eq]
  simp

/-! ## C6 — merge algebra -/

/-- C6 counterexample: merging a duplicated single-run input is not the same
as merging one copy (the duplicate's run is concatenated again). -/
theorem merge_not_idempotent_counterexample :
    merge_sarif_runs c6fs ["a", "a"] ≠ merge_sarif_runs c6fs ["a"] := by
  decide

/-- C6 (amended): merging, viewed as concatenation of the inputs' `runs`
arrays, is associative; but duplicate inputs of identical content are NOT
idempotent — each occurrence contributes its `runs` again. -/
theorem merge_associative_duplicates_concatenate :
    (∀ (fs : FS) (pA pB pC pAB pBC : String),
      readRuns fs pAB = readRuns fs pA ++ readRuns fs pB →
      readRuns fs pBC = readRuns fs pB ++ readRuns fs pC →
      merge_sarif_runs fs [pAB, pC] = merge_sarif_runs fs [pA, pB, pC] ∧
      merge_sarif_runs fs [pA, pBC] = merge_sarif_runs fs [pA, pB, pC]) ∧
    (∀ (fs : FS) (p : String), collectRuns fs [p, p] = readRuns fs p ++ readRuns fs p) := by
  constructor
  · intro fs pA pB pC pAB pBC h1 h2
    constructor <;>
    · rw [merge_runs_char, merge_runs_char]
      simp [collectRuns, List.flatMap_cons, h1, h2, List.append_assoc]
  · intro fs p
    simp [collectRuns, List.flatMap_cons]

theorem merge_associative_duplicates_concatenate_witness :
    (merge_sarif_runs c6fs ["a", "b"] = merge_sarif_runs c6fs ["a", "b", "b"] ∧
     merge_sarif_runs c6fs ["a", "b"] = merge_sarif_runs c6fs ["a", "b", "b"]) ∧
    collectRuns c6fs ["a", "a"] = readRuns c6fs "a" ++ readRuns c6fs "a" :=
  ⟨merge_associative_duplicates_concatenate.1 c6fs "a" "b" "b" "a" "b"
      (by decide) (by decide),
   merge_associative_duplicates_concatenate.2 c6fs "a"⟩

/-! ## C10 — merge totality, skipping, order -/

/-- C10: `merge_sarif_runs` is total over its oracle inputs — the source's
`try/except` catches every per-entry failure: empty path entries, missing
files and unreadable/unparseable files are skipped (contribute no runs), the
remaining well-formed inputs' `runs` arrays are concatenated in list order,
and the output document is produced exactly when that concatenation is
nonempty. -/
theorem merge_total_skips_bad_entries :
    (∀ (fs : FS) (paths : List String),
      merge_sarif_runs fs paths =
        (if (collectRuns fs paths).isEmpty then (false, none)
         else (true, some ⟨sarifSchemaUrl, "2.1.0", collectRuns fs paths⟩))) ∧
    (∀ (fs : FS) (paths : List String), collectRuns fs paths = paths.flatMap (readRuns fs)) ∧
    (∀ (fs : FS), readRuns fs "" = []) ∧
    (∀ (fs : FS) (p : String), fs p = .notFile → readRuns fs p = []) ∧
    (∀ (fs : FS) (p : String) (sz : Nat), fs p = .file sz none → readRuns fs p = []) ∧
    (∀ (fs : FS) (p : String) (sz : Nat) (d : SarifDoc), p ≠ "" → fs p = .file sz (some d) →
      readRuns fs p = d.runs) := by
  refine ⟨merge_runs_char, fun _ _ => rfl, fun _ => rfl, ?_, ?_, ?_⟩
  · intro fs p hfs
    unfold readRuns
    split_ifs with hp
    · rfl
    · rw [hfs]
  · intro fs p sz hfs
    unfold readRuns
    split_ifs with hp
    · rfl
    · rw [hfs]
  · intro fs p sz d hp hfs
    unfold readRuns
    rw [if_neg hp, hfs]

theorem merge_total_skips_bad_entries_witness :
    readRuns c10fs "bad" = [] ∧ readRuns c10fs "missing" = [] ∧
    readRuns c10fs "good" = (⟨[⟨[], []⟩]⟩ : SarifDoc).runs :=
  ⟨merge_total_skips_bad_entries.2.2.2.2.1 c10fs "bad" 3 (by decide),
   merge_total_skips_bad_entries.2.2.2.1 c10fs "missing" (by decide),
   merge_total_skips_bad_entries.2.2.2.2.2 c10fs "good" 10 ⟨[⟨[], []⟩]⟩ (by decide) (by decide)⟩

/-! ## Trace support lemmas -/

theorem applyOps_append (p t : List Op) (s : DBState) :
    applyOps (p ++ t) s = applyOps t (applyOps p s) := by
  simp [applyOps, List.foldl_append]

theorem stepOp_artifacts (s : DBState) (op : Op) :
    (stepOp s op).artifacts = s.artifacts ++ (opArtifact op).toList := by
  cases op <;> simp [stepOp, opArtifact]
  split <;> simp

theorem artifacts_applyOps (ops : List Op) (s : DBState) :
    (applyOps ops s).artifacts = s.artifacts ++ ops.filterMap opArtifact := by
  induction ops generalizing s with
  | nil => simp [applyOps]
  | cons op rest ih =>
    simp only [applyOps, List.foldl_cons] at *
    rw [ih, stepOp_artifacts]
    cases h : opArtifact op <;> simp [List.filterMap_cons, h]

theorem filterMap_opArtifact_addFinding (l : List Finding) :
    (l.map Op.addFinding).filterMap opArtifact = [] := by
  induction l <;> simp [opArtifact, *]

theorem filterMap_opArtifact_addArtifact (l : List (String × String)) :
    (l.map (fun tp => Op.addArtifact tp.1)).filterMap opArtifact = l.map Prod.fst := by
  induction l <;> simp [opArtifact, *]

theorem availPairs_fst (fs : FS) (l : List (String × Option String)) :
    ∀ tp ∈ availPairs fs l, tp.1 ∈ l.map Prod.fst := by
  induction l with
  | nil => intro tp h; simp [availPairs] at h
  | cons hd rest ih =>
    intro tp h
    unfold availPairs at h
    rw [List.mem_append] at h
    simp only [List.map_cons, List.mem_cons]
    rcases h with h | h
    · cases hhd : hd.2 with
      | none => rw [hhd] at h; simp at h
      | some p =>
        rw [hhd] at h
        dsimp only at h
        split_ifs at h with hc
        · rw [List.mem_singleton] at h
          exact Or.inl (by rw [h])
        · simp at h
    · exact Or.inr (ih tp h)

theorem trace_artifact_names (env : Env) :
    ∀ nm ∈ (runScanJobOps env).filterMap opArtifact,
      nm = "osv.sarif" ∨ nm = "semgrep.sarif" ∨ nm = "codeql.sarif" ∨
      (nm = "merged.sarif" ∧ mergedWrittenOf env = true) := by
  intro nm hnm
  unfold runScanJobOps at hnm
  cases hre : env.runExists
  · rw [hre] at hnm
    simp [opArtifact] at hnm
  · rw [hre] at hnm
    cases hrp : env.repoExists
    · rw [hrp] at hnm
      simp [opArtifact] at hnm
    · rw [hrp] at hnm
      cases htok : env.token
      · rw [htok] at hnm
        simp [opArtifact] at hnm
      · rw [htok] at hnm
        cases ht1 : timeoutFires env env.tc1
        · rw [ht1] at hnm
          cases hd : _download_repo_archive env.httpError env.chunks env.maxArchiveBytes
          · rw [hd] at hnm
            simp [opArtifact] at hnm
          · rw [hd] at hnm
            cases ht2 : timeoutFires env env.tc2
            · rw [ht2] at hnm
              unfold scanOps at hnm
              cases ht3 : timeoutFires env env.tc3
              · rw [ht3] at hnm
                cases ht4 : timeoutFires env env.tc4
                · rw [ht4] at hnm
                  unfold tailOps at hnm
                  simp [opArtifact, filterMap_opArtifact_addFinding,
                    filterMap_opArtifact_addArtifact] at hnm
                  rcases hnm with ⟨x, hx⟩ | ⟨a, ⟨hmw, rfl⟩, hsome⟩
                  · have hin := availPairs_fst _ _ (nm, x) hx
                    simp at hin
                    tauto
                  · dsimp only at hsome
                    rw [Option.some.injEq] at hsome
                    subst hsome
                    refine Or.inr (Or.inr (Or.inr ⟨rfl, ?_⟩))
                    unfold mergedWrittenOf
                    exact hmw
                · rw [ht4] at hnm
                  simp [opArtifact] at hnm
              · rw [ht3] at hnm
                simp [opArtifact] at hnm
            · rw [ht2] at hnm
              simp [opArtifact] at hnm
        · rw [ht1] at hnm
          simp [opArtifact] at hnm

/-! ## C7 — empty merged runs produce no artifact -/

/-- C7: when the concatenated `runs` arrays of the input SARIF paths are
empty, `merge_sarif_runs` writes no output and returns `false`, and the run
stores no `merged.sarif` ScanArtifact row. -/
theorem merge_empty_no_merged_artifact :
    (∀ (fs : FS) (paths : List String), collectRuns fs paths = [] →
      merge_sarif_runs fs paths = (false, none)) ∧
    (∀ (env : Env) (tStart : ℚ), collectRuns env.fs (envAvailSarifPaths env) = [] →
      "merged.sarif" ∉ (runScanJob env tStart).artifacts) := by
  constructor
  · intro fs paths h
    rw [merge_runs_char, h]
    rfl
  · intro env tStart h hmem
    rw [runScanJob, artifacts_applyOps] at hmem
    simp only [initDB, List.nil_append] at hmem
    have hnames := trace_artifact_names env "merged.sarif" hmem
    have hmw : mergedWrittenOf env = false := by
      unfold mergedWrittenOf mergedWrittenPaths
      dsimp only
      rw [merge_runs_char]
      have hps : (envAvailSarifPaths env) =
          ((availPairs env.fs
            [("osv", (scanPair env).1.2.2), ("semgrep", (scanPair env).2.2.2),
             ("codeql",
               (run_codeql env.fs env.workDir env.codeqlCreateProc
                 env.codeqlAnalyzeProc).2.2)]).map (fun tp => tp.2)) := rfl
      rw [← hps, h]
      simp
    rcases hnames with h1 | h1 | h1 | ⟨h1, h2⟩
    · exact absurd h1 (by decide)
    · exact absurd h1 (by decide)
    · exact absurd h1 (by decide)
    · rw [hmw] at h2
      exact absurd h2 (by decide)

theorem merge_empty_no_merged_artifact_witness :
    merge_sarif_runs (fun _ => FileKind.notFile) ["x"] = (false, none) ∧
    "merged.sarif" ∉ (runScanJob c1env 0).artifacts :=
  ⟨merge_empty_no_merged_artifact.1 (fun _ => FileKind.notFile) ["x"] (by decide),
   merge_empty_no_merged_artifact.2 c1env 0 (by decide)⟩

/-! ## C5 — archive size bound -/

theorem listStarts_of_append (n : List Char) :
    ∀ (a b : List Char), listStarts n a = true → listStarts n (a ++ b) = true := by
  induction n with
  | nil => intro a b _; simp [listStarts]
  | cons c cs ih =>
    intro a b h
    cases a with
    | nil => simp [listStarts] at h
    | cons x xs =>
      simp only [listStarts, Bool.and_eq_true, decide_eq_true_eq] at h
      simp only [List.cons_append, listStarts, Bool.and_eq_true, decide_eq_true_eq]
      exact ⟨h.1, ih xs b h.2⟩

theorem strContains_of_starts (hay needle : String)
    (h : listStarts needle.data hay.data = true) : strContains hay needle = true := by
  unfold strContains
  cases hh : hay.data with
  | nil => rw [hh] at h; unfold listHasSub; exact h
  | cons c rest =>
    rw [hh] at h
    unfold listHasSub
    rw [h]
    simp

theorem archive_msg_contains (maxB : Nat) :
    strContains (archiveSizeError maxB) "Archive exceeds max size" = true := by
  apply strContains_of_starts
  have hdata : (archiveSizeError maxB).data =
      "Archive exceeds max size (".data ++ (toString maxB ++ " bytes)").data := by
    unfold archiveSizeError
    rw [String.append_assoc]
    exact String.data_append _ _
  rw [hdata]
  apply listStarts_of_append
  decide

theorem downloadLoop_ok (maxB : Nat) :
    ∀ (chunks : List (List Nat)) (total : Nat) (acc : List Nat),
      total + (chunks.map List.length).sum ≤ maxB →
      downloadLoop maxB chunks total acc = .ok (acc ++ chunks.flatten) := by
  intro chunks
  induction chunks with
  | nil => intro total acc _; simp [downloadLoop]
  | cons c rest ih =>
    intro total acc h
    simp only [List.map_cons, List.sum_cons] at h
    unfold downloadLoop
    by_cases hc : c.isEmpty
    · rw [if_pos hc]
      have hce : c = [] := List.isEmpty_iff.mp hc
      subst hce
      rw [ih total acc (by simpa using h)]
      simp
    · rw [if_neg hc]
      have hno : ¬ (maxB < total + c.length) := by omega
      rw [if_neg hno]
      rw [ih (total + c.length) (acc ++ c) (by omega)]
      simp

theorem downloadLoop_err (maxB : Nat) :
    ∀ (chunks : List (List Nat)) (total : Nat) (acc : List Nat),
      total ≤ maxB → maxB < total + (chunks.map List.length).sum →
      downloadLoop maxB chunks total acc = .error (archiveSizeError maxB) := by
  intro chunks
  induction chunks with
  | nil =>
    intro total acc hle hlt
    simp at hlt
    omega
  | cons c rest ih =>
    intro total acc hle hlt
    simp only [List.map_cons, List.sum_cons] at hlt
    unfold downloadLoop
    by_cases hc : c.isEmpty
    · rw [if_pos hc]
      have hce : c = [] := List.isEmpty_iff.mp hc
      subst hce
      exact ih total acc hle (by simpa using hlt)
    · rw [if_neg hc]
      by_cases hover : maxB < total + c.length
      · rw [if_pos hover]
      · rw [if_neg hover]
        exact ih (total + c.length) (acc ++ c) (by omega) (by omega)

/-- C5: a stream whose cumulative size exceeds `MAX_ARCHIVE_BYTES` makes the
download raise an error whose message contains "Archive exceeds max size" and
the run fail with that message; a stream within the bound returns the full
archive body. -/
theorem archive_size_bound :
    (∀ (chunks : List (List Nat)) (maxB : Nat),
      maxB < (chunks.map List.length).sum →
      downloadLoop maxB chunks 0 [] = .error (archiveSizeError maxB) ∧
      strContains (archiveSizeError maxB) "Archive exceeds max size" = true) ∧
    (∀ (chunks : List (List Nat)) (maxB : Nat),
      (chunks.map List.length).sum ≤ maxB →
      downloadLoop maxB chunks 0 [] = .ok chunks.flatten) ∧
    (∀ (env : Env) (tStart : ℚ),
      env.runExists = true → env.repoExists = true → env.token = .ok () →
      timeoutFires env env.tc1 = false → env.httpError = none →
      env.maxArchiveBytes < (env.chunks.map List.length).sum →
      (runScanJob env tStart).run.status = "failed" ∧
      (runScanJob env tStart).run.error_message =
        some (archiveSizeError env.maxArchiveBytes) ∧
      (runScanJob env tStart).run.ended_at = some env.tFailed) := by
  refine ⟨?_, ?_, ?_⟩
  · intro chunks maxB h
    exact ⟨downloadLoop_err maxB chunks 0 [] (Nat.zero_le _) (by simpa using h),
      archive_msg_contains maxB⟩
  · intro chunks maxB h
    simpa using downloadLoop_ok maxB chunks 0 [] (by simpa using h)
  · intro env tStart h1 h2 htok ht1 hhttp hsz
    have hdl : _download_repo_archive env.httpError env.chunks env.maxArchiveBytes =
        .error (archiveSizeError env.maxArchiveBytes) := by
      unfold _download_repo_archive
      rw [hhttp]
      exact downloadLoop_err env.maxArchiveBytes env.chunks 0 [] (Nat.zero_le _)
        (by simpa using hsz)
    unfold runScanJob runScanJobOps
    rw [h1, h2, htok, ht1, hdl]
    simp [applyOps, stepOp, initDB]

theorem archive_size_bound_witness :
    (downloadLoop 4 [[1, 2, 3], [4, 5, 6]] 0 [] = .error (archiveSizeError 4) ∧
     strContains (archiveSizeError 4) "Archive exceeds max size" = true) ∧
    downloadLoop 10 [[1, 2, 3], [4, 5, 6]] 0 [] = .ok [1, 2, 3, 4, 5, 6] ∧
    ((runScanJob c5env 0).run.status = "failed" ∧
     (runScanJob c5env 0).run.error_message = some (archiveSizeError 4) ∧
     (runScanJob c5env 0).run.ended_at = some 6) :=
  ⟨archive_size_bound.1 [[1, 2, 3], [4, 5, 6]] 4 (by decide),
   archive_size_bound.2.1 [[1, 2, 3], [4, 5, 6]] 10 (by decide),
   archive_size_bound.2.2 c5env 0 rfl rfl rfl (by decide) rfl (by decide)⟩

/-! ## C4 — global job timeout -/

/-- C4: whenever a timeout checkpoint observes that the elapsed wall-clock
time exceeds the global budget, the pipeline raises at that checkpoint and
the run ends `failed` with `error_message = "Job timeout"` and `ended_at`
set. -/
theorem global_timeout_fails_run (env : Env) (tStart : ℚ)
    (h1 : env.runExists = true) (h2 : env.repoExists = true)
    (htok : env.token = .ok ())
    (hdl : ∃ bs, _download_repo_archive env.httpError env.chunks env.maxArchiveBytes = .ok bs)
    (hfire : timeoutFires env env.tc1 = true ∨ timeoutFires env env.tc2 = true ∨
      timeoutFires env env.tc3 = true ∨ timeoutFires env env.tc4 = true) :
    (runScanJob env tStart).run.status = "failed" ∧
    (runScanJob env tStart).run.error_message = some "Job timeout" ∧
    (runScanJob env tStart).run.ended_at = some env.tFailed := by
  obtain ⟨bs, hdl⟩ := hdl
  unfold runScanJob runScanJobOps
  rw [h1, h2, htok]
  cases ht1 : timeoutFires env env.tc1
  · rw [hdl]
    cases ht2 : timeoutFires env env.tc2
    · unfold scanOps
      cases ht3 : timeoutFires env env.tc3
      · cases ht4 : timeoutFires env env.tc4
        · rw [ht1, ht2, ht3, ht4] at hfire
          simp at hfire
        · simp [applyOps, stepOp, initDB]
      · simp [applyOps, stepOp, initDB]
    · simp [applyOps, stepOp, initDB]
  · simp [applyOps, stepOp, initDB]

theorem global_timeout_fails_run_witness :
    (runScanJob c4env 0).run.status = "failed" ∧
    (runScanJob c4env 0).run.error_message = some "Job timeout" ∧
    (runScanJob c4env 0).run.ended_at = some 6 :=
  global_timeout_fails_run c4env 0 rfl rfl rfl ⟨[1, 2], rfl⟩ (Or.inl (by decide))

/-! ## C1 — all scanner binaries absent -/

theorem run_osv_notfound (fs : FS) (workDir : String)
    (hfs : fs (workDir ++ "/osv.sarif") = .notFile) :
    run_osv fs workDir .notFound = (false, "command not found", none) := by
  have hif : isFile fs (workDir ++ "/osv.sarif") = false := by
    unfold isFile
    rw [hfs]
  unfold run_osv _run
  dsimp only
  rw [hif]
  simp only [Bool.false_and, Bool.and_false]
  rw [show (osvPhrases.any fun ph => strContains (pyLower "command not found") ph) = false from
    by decide]
  simp [pyOr]

theorem run_semgrep_notfound (fs : FS) (workDir : String)
    (hfs : fs (workDir ++ "/semgrep.sarif") = .notFile) :
    run_semgrep fs workDir .notFound = (false, "command not found", none) := by
  have hif : isFile fs (workDir ++ "/semgrep.sarif") = false := by
    unfold isFile
    rw [hfs]
  unfold run_semgrep _run
  dsimp only
  rw [hif]
  simp only [Bool.false_and, Bool.and_false]
  simp [pyOr]

theorem run_codeql_notfound (fs : FS) (workDir : String) (analyzeProc : ProcResult) :
    run_codeql fs workDir .notFound analyzeProc =
      (false, "CodeQL CLI not found (set CODEQL_HOME or add codeql to PATH).", none) := by
  unfold run_codeql _run
  dsimp only
  rw [show pyStrip (pyOr "command not found" "codeql database create failed") =
    "command not found" from by decide]
  simp

/-- With both parallel drivers reporting "command not found" and no output
paths, the path-based result dispatch (worker.py lines 113-121) sends BOTH
results to the Semgrep slot, leaving the OSV slot at its initial
`(False, "", None)`. -/
theorem scanPair_all_notfound (env : Env) (hosv : env.osvProc = .notFound)
    (hsem : env.semgrepProc = .notFound)
    (hfs1 : env.fs (env.workDir ++ "/osv.sarif") = .notFile)
    (hfs2 : env.fs (env.workDir ++ "/semgrep.sarif") = .notFile) :
    scanPair env = ((false, "", none), (false, "command not found", none)) := by
  unfold scanPair
  rw [hosv, hsem, run_osv_notfound env.fs env.workDir hfs1,
    run_semgrep_notfound env.fs env.workDir hfs2]
  cases h : env.osvCompletesFirst <;> simp [dispatchOne]

/-- C1 counterexample: in an environment where all three scanner binaries are
absent, the run completes but the `sca_osv` stage row records
`error_message = ''` (the empty string), not "command not found" — the
path-based fan-out dispatch misattributes both parallel results to the
Semgrep slot. -/
theorem scanners_absent_counterexample :
    (runScanJob c1env 0).run.status = "completed" ∧
    (lastStage (runScanJob c1env 0) "sca_osv").map StageRec.error_message = some (some "") ∧
    ¬ ((lastStage (runScanJob c1env 0) "sca_osv").map StageRec.error_message =
        some (some "command not found")) := by
  refine ⟨by decide, by decide, by decide⟩

/-- C1 (amended): with all three scanner binaries absent from PATH the run
still terminates `completed` with zero findings, no artifacts, and
`result_summary` reporting each tool as "skip"; but the stage rows read:
`sast_semgrep` has `error_message = 'command not found'`, `sca_osv` has
`error_message = ''` (the dispatch loop keyed on the null output path), and
`semantic_codeql` has the rewritten message "CodeQL CLI not found (set
CODEQL_HOME or add codeql to PATH).". -/
theorem scanners_absent_run (env : Env) (tStart : ℚ)
    (h1 : env.runExists = true) (h2 : env.repoExists = true)
    (htok : env.token = .ok ())
    (hdl : ∃ bs, _download_repo_archive env.httpError env.chunks env.maxArchiveBytes = .ok bs)
    (ht1 : timeoutFires env env.tc1 = false) (ht2 : timeoutFires env env.tc2 = false)
    (ht3 : timeoutFires env env.tc3 = false) (ht4 : timeoutFires env env.tc4 = false)
    (hosv : env.osvProc = .notFound) (hsem : env.semgrepProc = .notFound)
    (hcql : env.codeqlCreateProc = .notFound)
    (hfs : ∀ p, env.fs p = .notFile) :
    (runScanJob env tStart).run.status = "completed" ∧
    (runScanJob env tStart).findings = [] ∧
    (runScanJob env tStart).artifacts = [] ∧
    (lastStage (runScanJob env tStart) "sca_osv").map StageRec.error_message = some (some "") ∧
    (lastStage (runScanJob env tStart) "sast_semgrep").map StageRec.error_message =
      some (some "command not found") ∧
    (lastStage (runScanJob env tStart) "semantic_codeql").map StageRec.error_message =
      some (some "CodeQL CLI not found (set CODEQL_HOME or add codeql to PATH).") ∧
    (runScanJob env tStart).run.result_summary = some (summaryText 0 false false false) := by
  obtain ⟨bs, hdl⟩ := hdl
  have hsp := scanPair_all_notfound env hosv hsem (hfs _) (hfs _)
  have hcq := run_codeql_notfound env.fs env.workDir env.codeqlAnalyzeProc
  unfold runScanJob runScanJobOps scanOps
  rw [h1, h2, htok, ht1, hdl, ht2, ht3, hsp, hcql, hcq, ht4]
  unfold tailOps mergedWrittenPaths
  dsimp only
  simp [availPairs, applyOps, stepOp, initDB, lastStage, updateLastStage, summaryText]

theorem scanners_absent_run_witness :
    (runScanJob c1env 0).run.status = "completed" ∧
    (runScanJob c1env 0).findings = [] ∧
    (runScanJob c1env 0).artifacts = [] ∧
    (lastStage (runScanJob c1env 0) "sca_osv").map StageRec.error_message = some (some "") ∧
    (lastStage (runScanJob c1env 0) "sast_semgrep").map StageRec.error_message =
      some (some "command not found") ∧
    (lastStage (runScanJob c1env 0) "semantic_codeql").map StageRec.error_message =
      some (some "CodeQL CLI not found (set CODEQL_HOME or add codeql to PATH).") ∧
    (runScanJob c1env 0).run.result_summary = some (summaryText 0 false false false) :=
  scanners_absent_run c1env 0 rfl rfl rfl ⟨[1, 2], rfl⟩ (by decide) (by decide) (by decide)
    (by decide) rfl rfl rfl (fun _ => rfl)

/-! ## C9 — scoped sessions -/

/-- C9: a `get_session` scope commits its changes exactly when the enclosed
block exits normally, and rolls back (leaving the persistent state unchanged)
and re-raises the exception whenever the block raises. -/
theorem session_commit_on_success_rollback_on_error {α ε : Type}
    (store : α) (block : α → Except ε α) :
    (∀ s, block store = .ok s → get_session store block = (.ok (), s)) ∧
    (∀ e, block store = .error e → get_session store block = (.error e, store)) := by
  constructor
  · intro s h
    unfold get_session
    rw [h]
    rfl
  · intro e h
    unfold get_session
    rw [h]
    rfl

theorem session_commit_on_success_rollback_on_error_witness :
    get_session (0 : Nat) (fun s => (Except.ok (s + 1) : Except String Nat)) = (.ok (), 1) ∧
    get_session (0 : Nat) (fun _ => (Except.error "boom" : Except String Nat)) =
      (.error "boom", 0) :=
  ⟨(session_commit_on_success_rollback_on_error 0 _).1 1 rfl,
   (session_commit_on_success_rollback_on_error 0 _).2 "boom" rfl⟩

/-! ## C8 — terminal-state immutability -/

theorem applyOps_cons (op : Op) (ops : List Op) (s : DBState) :
    applyOps (op :: ops) s = applyOps ops (stepOp s op) := by
  simp [applyOps]

theorem applyOps_nil (s : DBState) : applyOps [] s = s := rfl

theorem headsOf_nil {α : Type} (l : List α) : headsOf [] l := ⟨l, rfl⟩

theorem headsOf_cons_elim {α : Type} {p : List α} {a : α} {l : List α}
    (h : headsOf p (a :: l)) : p = [] ∨ ∃ p', p = a :: p' ∧ headsOf p' l := by
  obtain ⟨t, ht⟩ := h
  cases p with
  | nil => exact Or.inl rfl
  | cons x xs =>
    rw [List.cons_append] at ht
    injection ht with h1 h2
    exact Or.inr ⟨xs, by rw [h1], ⟨t, h2⟩⟩

theorem headsOf_append_elim {α : Type} {p a b : List α} (h : headsOf p (a ++ b)) :
    headsOf p a ∨ ∃ p', p = a ++ p' ∧ headsOf p' b := by
  induction a generalizing p with
  | nil => exact Or.inr ⟨p, by simp, by simpa using h⟩
  | cons x xs ih =>
    rcases headsOf_cons_elim h with rfl | ⟨p', rfl, hp'⟩
    · exact Or.inl (headsOf_nil _)
    · rcases ih hp' with hl | ⟨p'', rfl, hp''⟩
      · left
        obtain ⟨t, ht⟩ := hl
        exact ⟨t, by rw [List.cons_append, ht]⟩
      · exact Or.inr ⟨p'', rfl, hp''⟩

theorem headsOf_append_cancel {α : Type} {a p q : List α}
    (hpq : headsOf (a ++ p) (a ++ q)) : headsOf p q := by
  obtain ⟨t, ht⟩ := hpq
  rw [List.append_assoc] at ht
  exact ⟨t, List.append_cancel_left ht⟩

theorem terminal_status {s s' : DBState} (h : s'.run.status = s.run.status) :
    Terminal s' ↔ Terminal s := by
  unfold Terminal
  rw [h]

theorem status_applyOps_keep (ops : List Op) (s : DBState)
    (hkeep : ∀ op ∈ ops, ∀ st : DBState, (stepOp st op).run.status = st.run.status) :
    (applyOps ops s).run.status = s.run.status := by
  induction ops generalizing s with
  | nil => rfl
  | cons op rest ih =>
    rw [applyOps_cons]
    rw [ih (stepOp s op) (fun o ho st => hkeep o (List.mem_cons_of_mem _ ho) st)]
    exact hkeep op (List.mem_cons_self op rest) s

theorem goodFrom_nil (s : DBState) : GoodFrom [] s := by
  intro p q hpq hq _
  obtain ⟨t2, ht2⟩ := hq
  have hq0 : q = [] := by
    cases q with
    | nil => rfl
    | cons x xs => simp at ht2
  subst hq0
  obtain ⟨t1, ht1⟩ := hpq
  have hp0 : p = [] := by
    cases p with
    | nil => rfl
    | cons x xs => simp at ht1
  subst hp0
  rfl

theorem headsOf_trans {α : Type} {p q r : List α} (h1 : headsOf p q) (h2 : headsOf q r) :
    headsOf p r := by
  obtain ⟨t1, rfl⟩ := h1
  obtain ⟨t2, rfl⟩ := h2
  exact ⟨t1 ++ t2, by rw [List.append_assoc]⟩

theorem not_terminal_running {s : DBState} (hs : s.run.status = "running") : ¬ Terminal s := by
  intro h
  unfold Terminal at h
  rw [hs] at h
  rcases h with h | h <;> simp at h

theorem goodFrom_statusKeeping_append (ops1 ops2 : List Op) (s : DBState)
    (hs : s.run.status = "running")
    (hkeep : ∀ op ∈ ops1, ∀ st : DBState, (stepOp st op).run.status = st.run.status)
    (hrest : GoodFrom ops2 (applyOps ops1 s)) :
    GoodFrom (ops1 ++ ops2) s := by
  intro p q hpq hq hterm
  have hnt : ∀ r, headsOf r ops1 → ¬ Terminal (applyOps r s) := by
    intro r hr
    obtain ⟨t, ht⟩ := hr
    have hsub : ∀ op ∈ r, ∀ st : DBState, (stepOp st op).run.status = st.run.status := by
      intro op ho st
      exact hkeep op (by rw [← ht]; exact List.mem_append_left _ ho) st
    have hst : (applyOps r s).run.status = "running" := by
      rw [status_applyOps_keep r s hsub, hs]
    exact not_terminal_running hst
  rcases headsOf_append_elim hq with hq1 | ⟨q', rfl, hq2⟩
  · exact absurd hterm (hnt p (headsOf_trans hpq hq1))
  · rcases headsOf_append_elim hpq with hp1 | ⟨p', rfl, hp2⟩
    · exact absurd hterm (hnt p hp1)
    · rw [applyOps_append] at hterm ⊢
      rw [applyOps_append]
      exact hrest p' q' (headsOf_append_cancel hpq) hq2 hterm

theorem goodFrom_single (op : Op) (s : DBState) (hs : s.run.status = "running") :
    GoodFrom [op] s := by
  intro p q hpq hq hterm
  rcases headsOf_cons_elim hq with rfl | ⟨q', rfl, hq'⟩
  · obtain ⟨t1, ht1⟩ := hpq
    have hp0 : p = [] := by cases p <;> simp_all
    subst hp0
    rfl
  · obtain ⟨t2, ht2⟩ := hq'
    have hq0 : q' = [] := by cases q' <;> simp_all
    subst hq0
    rcases headsOf_cons_elim hpq with rfl | ⟨p', rfl, hp'⟩
    · exact absurd hterm (not_terminal_running hs)
    · obtain ⟨t1, ht1⟩ := hp'
      have hp0 : p' = [] := by cases p' <;> simp_all
      subst hp0
      rfl

theorem goodFrom_completed_tail (s : DBState) (hs : s.run.status = "running")
    (t tF : ℚ) (sum : String) :
    GoodFrom [Op.setCompleted t sum, Op.stageEnd "finalize" tF none] s := by
  intro p q hpq hq hterm
  rcases headsOf_cons_elim hq with rfl | ⟨q', rfl, hq'⟩
  · obtain ⟨t1, ht1⟩ := hpq
    have hp0 : p = [] := by cases p <;> simp_all
    subst hp0
    rfl
  · rcases headsOf_cons_elim hq' with rfl | ⟨q'', rfl, hq''⟩
    · rcases headsOf_cons_elim hpq with rfl | ⟨p', rfl, hp'⟩
      · exact absurd hterm (not_terminal_running hs)
      · obtain ⟨t1, ht1⟩ := hp'
        have hp0 : p' = [] := by cases p' <;> simp_all
        subst hp0
        rfl
    · obtain ⟨t2, ht2⟩ := hq''
      have hq0 : q'' = [] := by cases q'' <;> simp_all
      subst hq0
      rcases headsOf_cons_elim hpq with rfl | ⟨p', rfl, hp'⟩
      · exact absurd hterm (not_terminal_running hs)
      · rcases headsOf_cons_elim hp' with rfl | ⟨p'', rfl, hp''⟩
        · simp [applyOps, stepOp, coreFields]
        · obtain ⟨t1, ht1⟩ := hp''
          have hp0 : p'' = [] := by cases p'' <;> simp_all
          subst hp0
          rfl

theorem goodFrom_chain (ops1 ops2 : List Op) (s : DBState)
    (hs : s.run.status = "running")
    (hkeep : ∀ op ∈ ops1, ∀ st : DBState, (stepOp st op).run.status = st.run.status)
    (hrest : ∀ s' : DBState, s'.run.status = "running" → GoodFrom ops2 s') :
    GoodFrom (ops1 ++ ops2) s :=
  goodFrom_statusKeeping_append ops1 ops2 s hs hkeep
    (hrest _ (by rw [status_applyOps_keep ops1 s hkeep, hs]))

theorem good_trace (env : Env) (tStart : ℚ) : GoodFrom (runScanJobOps env) (initDB tStart) := by
  have hsInit : (initDB tStart).run.status = "running" := rfl
  unfold runScanJobOps
  cases hre : env.runExists
  · rw [if_pos (by decide)]
    exact goodFrom_nil _
  · rw [if_neg (by decide)]
    cases hrp : env.repoExists
    · rw [if_pos (by decide)]
      exact goodFrom_single _ _ hsInit
    · rw [if_neg (by decide)]
      cases htok : env.token
      · dsimp only
        exact goodFrom_single _ _ hsInit
      · dsimp only
        cases ht1 : timeoutFires env env.tc1
        · rw [if_neg (by decide)]
          cases hd : _download_repo_archive env.httpError env.chunks env.maxArchiveBytes
          · dsimp only
            exact goodFrom_chain _ _ _ hsInit
              (by intro op hop st; simp at hop; subst hop; rfl)
              (fun s' hs' => goodFrom_single _ s' hs')
          · dsimp only
            cases ht2 : timeoutFires env env.tc2
            · rw [if_neg (by decide)]
              unfold scanOps
              dsimp only
              cases ht3 : timeoutFires env env.tc3
              · rw [if_neg (show ¬(false = true) from by decide)]
                cases ht4 : timeoutFires env env.tc4
                · rw [if_neg (show ¬(false = true) from by decide)]
                  unfold tailOps
                  dsimp only
                  refine goodFrom_chain _ _ _ hsInit (by intro op hop st; simp at hop; subst hop; rfl) ?_
                  intro s1 h1
                  refine goodFrom_chain _ _ _ h1 (by intro op hop st; simp at hop; subst hop; rfl) ?_
                  intro s2 h2
                  refine goodFrom_chain _ _ _ h2 (by intro op hop st; simp at hop; rcases hop with rfl | rfl <;> rfl) ?_
                  intro s3 h3
                  refine goodFrom_chain _ _ _ h3 (by intro op hop st; simp at hop; rcases hop with rfl | rfl | rfl <;> rfl) ?_
                  intro s4 h4
                  refine goodFrom_chain _ _ _ h4 (by intro op hop st; simp at hop; subst hop; rfl) ?_
                  intro s5 h5
                  refine goodFrom_chain _ _ _ h5
                    (by intro op hop st
                        simp at hop
                        rcases hop with rfl | rfl | rfl | ⟨f, hf, rfl⟩ | ⟨a, ha, rfl⟩ |
                          ⟨hmw, rfl⟩ <;> rfl) ?_
                  intro s11 h11
                  show GoodFrom
                    ([Op.stageEnd "normalize" env.tNormEnd none,
                      Op.stageStart "finalize" env.tFinStart] ++ _) s11
                  refine goodFrom_chain _ _ _ h11 (by intro op hop st; simp at hop; rcases hop with rfl | rfl <;> rfl) ?_
                  intro s12 h12
                  exact goodFrom_completed_tail s12 h12 _ _ _
                · rw [if_pos (show (true = true) from rfl)]
                  exact goodFrom_chain _ _ _ hsInit (by intro op hop st; simp at hop; subst hop; rfl) (fun s1 h1 =>
                    goodFrom_chain _ _ _ h1 (by intro op hop st; simp at hop; subst hop; rfl) (fun s2 h2 =>
                    goodFrom_chain _ _ _ h2 (by intro op hop st; simp at hop; rcases hop with rfl | rfl <;> rfl) (fun s3 h3 =>
                    goodFrom_chain _ _ _ h3 (by intro op hop st; simp at hop; rcases hop with rfl | rfl | rfl <;> rfl) (fun s4 h4 =>
                    goodFrom_chain _ _ _ h4 (by intro op hop st; simp at hop; subst hop; rfl) (fun s5 h5 =>
                    goodFrom_single _ s5 h5)))))
              · rw [if_pos (show (true = true) from rfl)]
                exact goodFrom_chain _ _ _ hsInit (by intro op hop st; simp at hop; subst hop; rfl) (fun s1 h1 =>
                  goodFrom_chain _ _ _ h1 (by intro op hop st; simp at hop; subst hop; rfl) (fun s2 h2 =>
                  goodFrom_chain _ _ _ h2 (by intro op hop st; simp at hop; rcases hop with rfl | rfl <;> rfl) (fun s3 h3 =>
                  goodFrom_single _ s3 h3)))
            · rw [if_pos (by decide)]
              exact goodFrom_chain _ _ _ hsInit (by intro op hop st; simp at hop; subst hop; rfl) (fun s1 h1 =>
                goodFrom_single _ s1 h1)
        · rw [if_pos (by decide)]
          exact goodFrom_single _ _ hsInit

/-- C8: once a run's operation trace reaches a terminal status, every longer
prefix of the same trace observes identical status, current_stage, ended_at
and error_message; and a dispatcher claim never touches a terminal run. -/
theorem terminal_state_immutable :
    (∀ (env : Env) (tStart : ℚ) (p q : List Op),
      headsOf p q → headsOf q (runScanJobOps env) →
      Terminal (applyOps p (initDB tStart)) →
      coreFields (applyOps q (initDB tStart)) = coreFields (applyOps p (initDB tStart))) ∧
    (∀ (s : DBState) (t : ℚ), Terminal s →
      coreFields (stepOp s (Op.claimRun t)) = coreFields s) := by
  constructor
  · intro env tStart p q hpq hq hterm
    exact good_trace env tStart p q hpq hq hterm
  · intro s t hterm
    unfold stepOp
    dsimp only
    have hne : ¬ (s.run.status = "queued") := by
      rcases hterm with h | h <;>
      · intro hq
        rw [h] at hq
        exact absurd hq (by decide)
    rw [if_neg hne]

theorem terminal_state_immutable_witness :
    coreFields (applyOps (runScanJobOps c8env) (initDB 0)) =
      coreFields (applyOps ((runScanJobOps c8env).take 14) (initDB 0)) ∧
    coreFields (stepOp (applyOps (runScanJobOps c8env) (initDB 0)) (Op.claimRun 7)) =
      coreFields (applyOps (runScanJobOps c8env) (initDB 0)) :=
  ⟨terminal_state_immutable.1 c8env 0 ((runScanJobOps c8env).take 14) (runScanJobOps c8env)
      ⟨(runScanJobOps c8env).drop 14, List.take_append_drop 14 _⟩
      ⟨[], List.append_nil _⟩ (by decide),
   terminal_state_immutable.2 (applyOps (runScanJobOps c8env) (initDB 0)) 7 (by decide)⟩
